import Mathlib

/-!
Verification of the multi-source game-metadata aggregation core of the
obsidian-game-backlog plugin, as a shallow embedding in Lean 4.

Strings are modelled as `List Char`, JavaScript numbers as `ℚ` (exact
rationals), `null`/`undefined` as `Option`, and thrown exceptions as
`Except`.  Network and platform effects (HTTP requests, `Date.now()`,
Unicode NFD decomposition) are supplied as explicit oracle inputs so that
every function is a pure, executable Lean definition mirroring the
corresponding TypeScript source line by line.
-/

/-- Model of JavaScript `Math.round`: rounds half toward positive
infinity (`Math.round(0.5) = 1`, `Math.round(-0.5) = 0`). -/
def jsRound (q : ℚ) : ℤ := ⌊q + 1/2⌋

/-- Spec-side definition (from the spec's words, for refinement checks):
"round to one decimal place". -/
def spec_round1 (q : ℚ) : ℚ := (jsRound (q * 10) : ℚ) / 10

/-- Spec-side definition (from the spec's words, for refinement checks):
"round to two decimal places". -/
def spec_round2 (q : ℚ) : ℚ := (jsRound (q * 100) : ℚ) / 100

/-! ## HowLongToBeat client (`src/api/hltb.ts`) -/

/-- Raw HLTB search-record shape (`HltbGameData` in the source). -/
structure HltbGameData where
  game_id : Nat
  game_name : List Char
  game_image : List Char
  comp_main : ℚ
  comp_plus : ℚ
  comp_100 : ℚ
  comp_all : ℚ
  comp_all_count : ℚ
deriving Repr, DecidableEq

/-- Mapped HLTB result shape (`HltbResult` in the source). -/
structure HltbResult where
  id : Nat
  name : List Char
  imageUrl : List Char
  mainStoryHours : ℚ
  mainPlusExtrasHours : ℚ
  completionistHours : ℚ
deriving Repr, DecidableEq

/-- `HltbClient.secondsToHours`:
`if (!seconds || seconds === 0) return 0; return Math.round((seconds / 3600) * 10) / 10;` -/
def secondsToHours (seconds : ℚ) : ℚ :=
  if seconds = 0 then 0 else (jsRound (seconds / 3600 * 10) : ℚ) / 10

def HLTB_BASE_URL : List Char := "https://howlongtobeat.com".data

/-- `HltbClient.mapToResult`. -/
def mapToResult (game : HltbGameData) : HltbResult :=
  { id := game.game_id
    name := game.game_name
    imageUrl :=
      if game.game_image.isEmpty then []
      else HLTB_BASE_URL ++ "/games/".data ++ game.game_image
    mainStoryHours := secondsToHours game.comp_main
    mainPlusExtrasHours := secondsToHours game.comp_plus
    completionistHours := secondsToHours game.comp_100 }

/-! ## Orchestrator (`src/ui/AddGameModal.ts`) -/

/-- JS string truthiness: non-null and non-empty. -/
def jsTruthyStr (s : Option (List Char)) : Bool :=
  match s with
  | some l => !l.isEmpty
  | none => false

/-- JavaScript whitespace class (regex `\s`), by code point. -/
def isWs (c : Char) : Bool :=
  c.toNat = 32 || c.toNat = 9 || c.toNat = 10 || c.toNat = 11 || c.toNat = 12 ||
  c.toNat = 13 || c.toNat = 0xA0 || c.toNat = 0x1680 ||
  (0x2000 ≤ c.toNat && c.toNat ≤ 0x200A) || c.toNat = 0x2028 || c.toNat = 0x2029 ||
  c.toNat = 0x202F || c.toNat = 0x205F || c.toNat = 0x3000 || c.toNat = 0xFEFF

/-- Combining diacritical mark (regex `[̀-ͯ]`). -/
def isCombiningMark (c : Char) : Bool :=
  0x300 ≤ c.toNat && c.toNat ≤ 0x36F

/-- Character kept by the regex `[^a-z0-9\s]` removal in `normalize`. -/
def keepChar (c : Char) : Bool :=
  (97 ≤ c.toNat && c.toNat ≤ 122) || (48 ≤ c.toNat && c.toNat ≤ 57) || isWs c

/-- Model of `String.prototype.toLowerCase` on the relevant (ASCII) range. -/
def jsToLower (c : Char) : Char :=
  if 65 ≤ c.toNat ∧ c.toNat ≤ 90 then Char.ofNat (c.toNat + 32) else c

/-- Model of `.replace(/\s+/g, ' ')`: every maximal run of whitespace
becomes a single space. -/
def collapseWs : List Char → List Char
  | [] => []
  | [c] => if isWs c then [' '] else [c]
  | a :: b :: t =>
      if isWs a && isWs b then collapseWs (b :: t)
      else (if isWs a then ' ' else a) :: collapseWs (b :: t)

/-- Model of `String.prototype.trim`: strip whitespace at both ends. -/
def jsTrim (l : List Char) : List Char :=
  ((l.dropWhile isWs).reverse.dropWhile isWs).reverse

/-- Output alphabet of the normalization: lowercase ASCII letters, ASCII
digits and the single space character. -/
def isOutChar (c : Char) : Bool :=
  (97 ≤ c.toNat && c.toNat ≤ 122) || (48 ≤ c.toNat && c.toNat ≤ 57) || c.toNat = 32

/-- Whitespace-adjacency invariant: no two consecutive whitespace
characters anywhere in the list. -/
def WsChain (l : List Char) : Prop :=
  l.Chain' (fun a b => ¬(isWs a = true ∧ isWs b = true))

/-- `HltbClient.normalize`, parameterised by the platform's per-character
canonical (NFD) decomposition `nfd` (a JS builtin, hence an oracle input):
lowercase, NFD-decompose, strip combining marks, drop everything outside
`[a-z0-9\s]`, collapse whitespace runs, trim. -/
def hltbNormalize (nfd : Char → List Char) (s : List Char) : List Char :=
  jsTrim (collapseWs
    ((((s.map jsToLower).flatMap nfd).filter (fun c => !isCombiningMark c)).filter keepChar))

/-- `HltbClient.levenshtein`: edit distance via the classic
`dp[i][j] = dp[i-1][j-1]` on equal chars, `1 + min` of the three
neighbours otherwise. -/
def hltbLevenshtein : List Char → List Char → Nat
  | [], t => t.length
  | a :: s, [] => (a :: s).length
  | a :: s, b :: t =>
      if a = b then hltbLevenshtein s t
      else 1 + min (hltbLevenshtein s (b :: t))
        (min (hltbLevenshtein (a :: s) t) (hltbLevenshtein s t))
termination_by s t => s.length + t.length

/-- One step of the `reduce` in `HltbClient.searchGame` that picks the
fuzzy best match: smaller edit distance wins, ties go to the larger
`comp_all_count`. -/
def fuzzyStep (nfd : Char → List Char) (nq : List Char)
    (best current : HltbGameData) : HltbGameData :=
  let bestDist := hltbLevenshtein (hltbNormalize nfd best.game_name) nq
  let currentDist := hltbLevenshtein (hltbNormalize nfd current.game_name) nq
  if currentDist = bestDist then
    (if current.comp_all_count > best.comp_all_count then current else best)
  else if currentDist < bestDist then current else best

/-- Candidate-selection logic of `HltbClient.searchGame` (lines 174-192):
empty list gives `none`; a first exact normalized match wins; otherwise
`reduce` with the fuzzy comparator, seeded with the first element. -/
def selectBestMatch (nfd : Char → List Char) (gameName : List Char)
    (data : List HltbGameData) : Option HltbGameData :=
  match data with
  | [] => none
  | d :: _ =>
      let nq := hltbNormalize nfd gameName
      match data.find? (fun g => hltbNormalize nfd g.game_name == nq) with
      | some g => some g
      | none => some (data.foldl (fuzzyStep nfd nq) d)

/-- Shorthand for the edit distance between a candidate's normalized name
and a normalized query, as computed inside the fuzzy comparator. -/
def hltbDist (nfd : Char → List Char) (nq : List Char) (g : HltbGameData) : Nat :=
  hltbLevenshtein (hltbNormalize nfd g.game_name) nq

/-- Network interactions performed by the HLTB client, as trace events. -/
inductive HltbCall where
  | tokenFetch
  | discovery
  | searchPost
deriving Repr, DecidableEq

/-- Mutable fields of `HltbClient`. -/
structure HltbState where
  authToken : Option (List Char)
  searchUrl : List Char
deriving Repr, DecidableEq

/-- Initial `HltbClient` state: `authToken = null`, `searchUrl = '/api/search'`. -/
def hltbInitialState : HltbState :=
  { authToken := none, searchUrl := "/api/search".data }

/-- Oracle outcomes of one round of HLTB network traffic. -/
structure HltbEnv where
  tokenResp : Option (List Char)
  discoveredBase : Option (List Char)
  searchResp : Except (List Char) (List HltbGameData)

/-- `HltbClient.fetchAuthToken`: one GET to the init endpoint; returns the
token when the response carries a truthy one, `null` on any failure
(its `try`/`catch` is internal). -/
def fetchAuthToken (env : HltbEnv) : Option (List Char) × List HltbCall :=
  (match env.tokenResp with
   | some t => if t.isEmpty then none else some t
   | none => none,
   [HltbCall.tokenFetch])

/-- `HltbClient.discoverSearchUrl`: scrape the homepage and app script for
a POST endpoint base path (the scrape outcome is the oracle
`discoveredBase`); adopt `/api/<base>` unless the base is the known
non-search endpoint `find`; fall back to `/api/search` on any failure. -/
def discoverSearchUrl (env : HltbEnv) : List Char × List HltbCall :=
  (match env.discoveredBase with
   | some b => if b ≠ "find".data then "/api/".data ++ b else "/api/search".data
   | none => "/api/search".data,
   [HltbCall.discovery])

/-- `HltbClient.ensureInitialized`: fetch a token when the cached one is
falsy, then run endpoint discovery when the cached URL is still the
default. -/
def ensureInitialized (env : HltbEnv) (st : HltbState) :
    Bool × HltbState × List HltbCall :=
  let (st1, c1) :=
    if jsTruthyStr st.authToken then (st, ([] : List HltbCall))
    else
      let (t, c) := fetchAuthToken env
      ({ st with authToken := t }, c)
  if !jsTruthyStr st1.authToken then (false, st1, c1)
  else if st1.searchUrl = "/api/search".data then
    let (u, c2) := discoverSearchUrl env
    (true, { st1 with searchUrl := u }, c1 ++ c2)
  else (true, st1, c1)

/-- `HltbClient.searchGame`: the whole body runs inside `try`; the
`catch` clears the cached token (only) and returns `null`.  Hence the
function is total and returns a plain optional result. -/
def searchGame (nfd : Char → List Char) (env : HltbEnv) (st : HltbState)
    (gameName : List Char) : Option HltbResult × HltbState × List HltbCall :=
  let (ok, st1, c1) := ensureInitialized env st
  if !ok then (none, st1, c1)
  else
    match env.searchResp with
    | Except.error _ => (none, { st1 with authToken := none }, c1 ++ [HltbCall.searchPost])
    | Except.ok data =>
        match selectBestMatch nfd gameName data with
        | none => (none, st1, c1 ++ [HltbCall.searchPost])
        | some best => (some (mapToResult best), st1, c1 ++ [HltbCall.searchPost])

/-! ## SteamGridDB client (`src/api/steamgriddb.ts`) -/

/-- SteamGridDB game summary (`SgdbGame` in the source). -/
structure SgdbGame where
  id : Nat
  name : List Char
  types : List (List Char)
  verified : Bool
deriving Repr, DecidableEq

/-- SteamGridDB grid artwork candidate (`SgdbGrid` in the source; author
sub-object elided). -/
structure SgdbGrid where
  id : Nat
  score : ℤ
  style : List Char
  width : Nat
  height : Nat
  nsfw : Bool
  humor : Bool
  url : List Char
deriving Repr, DecidableEq

/-- Filter options accepted by `getGrids`. -/
structure GridOpts where
  styles : List (List Char)
  dimensions : List (List Char)
  nsfw : Option Bool
  humor : Option Bool
deriving Repr, DecidableEq

/-- Error taxonomy of `SteamGridDbClient.request`: missing API key
(ConfigurationError), transport exception, or an unsuccessful envelope. -/
inductive SgdbError where
  | config
  | net (msg : List Char)
  | api (errors : List (List Char))
deriving Repr, DecidableEq

/-- Response envelope `{success, data?, errors?}` of the artwork API. -/
structure SgdbEnvelope (α : Type) where
  success : Bool
  data : α
  errors : List (List Char)

/-- Network calls issued by the SteamGridDB client, as trace events. -/
inductive SgdbCall where
  | search (query : List Char)
  | grids (gameId : Nat) (opts : GridOpts)
  | heroes (gameId : Nat)
  | logos (gameId : Nat)
deriving Repr, DecidableEq

/-- `SteamGridDbClient.request`: throw immediately (no network call) when
the API key is falsy; otherwise issue the request (the outcome is the
oracle `resp`), throw on a transport error or an unsuccessful envelope,
and return the payload otherwise.  The second component is the list of
network calls actually issued. -/
def sgdbRequest {α : Type} (apiKey : List Char)
    (resp : Except (List Char) (SgdbEnvelope α)) (call : SgdbCall) :
    Except SgdbError α × List SgdbCall :=
  if apiKey.isEmpty then (Except.error SgdbError.config, [])
  else
    match resp with
    | Except.error m => (Except.error (SgdbError.net m), [call])
    | Except.ok env =>
        if !env.success then (Except.error (SgdbError.api env.errors), [call])
        else (Except.ok env.data, [call])

/-- `SteamGridDbClient.searchGames`. -/
def sgdbSearchGames (apiKey : List Char)
    (resp : Except (List Char) (SgdbEnvelope (List SgdbGame)))
    (query : List Char) : Except SgdbError (List SgdbGame) × List SgdbCall :=
  sgdbRequest apiKey resp (SgdbCall.search query)

/-- `SteamGridDbClient.getGrids`. -/
def getGrids (apiKey : List Char)
    (resp : Except (List Char) (SgdbEnvelope (List SgdbGrid)))
    (gameId : Nat) (opts : GridOpts) :
    Except SgdbError (List SgdbGrid) × List SgdbCall :=
  sgdbRequest apiKey resp (SgdbCall.grids gameId opts)

/-- Style allowlist of `getBestGrid`'s first query. -/
def preferredGridOpts : GridOpts :=
  { styles := ["alternate".data, "blurred".data, "material".data]
    dimensions := []
    nsfw := some false
    humor := some false }

/-- Options of `getBestGrid`'s style-unfiltered fallback query. -/
def fallbackGridOpts : GridOpts :=
  { styles := [], dimensions := [], nsfw := some false, humor := none }

/-- Descending-score ordering used by `grids.sort((a, b) => b.score - a.score)`. -/
def scoreDescLe (a b : SgdbGrid) : Bool := decide (b.score ≤ a.score)

/-- `SteamGridDbClient.getBestGrid`: styled/content-filtered query first;
when it yields zero candidates, a style-unfiltered (nsfw=false) query,
whose FIRST element is returned unsorted (`allGrids[0]`); a non-empty
first result is sorted by score descending and its head returned.  Any
exception in either query is caught and converted to `none`. -/
def getBestGrid (apiKey : List Char)
    (resp1 resp2 : Except (List Char) (SgdbEnvelope (List SgdbGrid)))
    (gameId : Nat) : Option SgdbGrid × List SgdbCall :=
  match getGrids apiKey resp1 gameId preferredGridOpts with
  | (Except.error _, c1) => (none, c1)
  | (Except.ok grids, c1) =>
      if grids.isEmpty then
        match getGrids apiKey resp2 gameId fallbackGridOpts with
        | (Except.error _, c2) => (none, c1 ++ c2)
        | (Except.ok allGrids, c2) => (allGrids.head?, c1 ++ c2)
      else
        ((grids.mergeSort scoreDescLe).head?, c1)

/-! ## IGDB client (`src/api/igdb.ts`) -/

/-- Mutable fields of `IgdbClient`. -/
structure IgdbState where
  accessToken : Option (List Char)
  tokenExpiry : ℤ
deriving Repr, DecidableEq

/-- Initial `IgdbClient` state: `accessToken = null`, `tokenExpiry = 0`. -/
def igdbInitialState : IgdbState := { accessToken := none, tokenExpiry := 0 }

/-- Oracle inputs for one `IgdbClient.request`: the clock reading and the
token endpoint's `{access_token, expires_in}` (seconds) response. -/
structure IgdbEnv where
  now : ℤ
  access_token : List Char
  expires_in : ℤ

/-- `IgdbClient.ensureAccessToken`: reuse the cached token while it is
truthy and `Date.now() < tokenExpiry`; otherwise throw when the
credentials are falsy, else request a fresh token and record its expiry
five minutes (300 s) before the server-declared one.  The `Nat` counts
token requests issued (0 or 1). -/
def ensureAccessToken (clientId clientSecret : List Char) (env : IgdbEnv)
    (st : IgdbState) : Except Unit (IgdbState × Nat) :=
  if jsTruthyStr st.accessToken && decide (env.now < st.tokenExpiry) then
    Except.ok (st, 0)
  else if clientId.isEmpty || clientSecret.isEmpty then Except.error ()
  else
    Except.ok
      ({ accessToken := some env.access_token
         tokenExpiry := env.now + (env.expires_in - 300) * 1000 }, 1)

/-- IGDB search result list returned by the catalog endpoint (an oracle
input; its contents do not affect the token lifecycle). -/
structure IgdbSearchEnv where
  base : IgdbEnv
  results : List (List Char)

/-- `IgdbClient.request` followed by `searchGames`: ensure a token, then
issue exactly one catalog POST.  The two counters are (token requests,
search requests) issued by this call. -/
def igdbSearchGames (clientId clientSecret : List Char) (env : IgdbSearchEnv)
    (st : IgdbState) (query : List Char) (limit : Nat) :
    Except Unit (List (List Char) × IgdbState × Nat × Nat) :=
  let _ := (query, limit)
  match ensureAccessToken clientId clientSecret env.base st with
  | Except.error e => Except.error e
  | Except.ok (st1, tk) => Except.ok (env.results, st1, tk, 1)

/-- Sequential catalog searches against one `IgdbClient` instance,
accumulating the numbers of token requests and search requests issued. -/
def runIgdbSearches (clientId clientSecret : List Char) :
    List (IgdbSearchEnv × List Char) → IgdbState →
    Except Unit (IgdbState × Nat × Nat)
  | [], st => Except.ok (st, 0, 0)
  | (env, q) :: rest, st =>
      match igdbSearchGames clientId clientSecret env st q 10 with
      | Except.error e => Except.error e
      | Except.ok (_, st1, tk, sr) =>
          match runIgdbSearches clientId clientSecret rest st1 with
          | Except.error e => Except.error e
          | Except.ok (st2, tks, srs) => Except.ok (st2, tk + tks, sr + srs)

/-- IGDB game record (fields used by the orchestrator). -/
structure IgdbGame where
  id : Nat
  name : List Char
  summary : Option (List Char)
  storyline : Option (List Char)
  aggregated_rating : Option ℚ
  first_release_date : Option ℤ
  cover_image_id : Option (List Char)
  genres : List (List Char)
deriving Repr, DecidableEq

/-- `AddGameModal.calculateEfficiency`:
`if (rating && hltbHours && hltbHours > 0) return Math.round((rating / hltbHours) * 100) / 100; return null;`
JS truthiness on numbers means `rating ≠ 0` and `hltbHours ≠ 0`. -/
def calculateEfficiency (rating : Option ℚ) (hltbHours : Option ℚ) : Option ℚ :=
  match rating, hltbHours with
  | some r, some h =>
      if r ≠ 0 ∧ h ≠ 0 ∧ h > 0 then some ((jsRound (r / h * 100) : ℚ) / 100)
      else none
  | _, _ => none

/-- Rating assembly in `handleSubmit`:
`gameDetails.aggregated_rating ? Math.round(gameDetails.aggregated_rating) : null`. -/
def assembledRating (aggregated_rating : Option ℚ) : Option ℚ :=
  match aggregated_rating with
  | some a => if a ≠ 0 then some ((jsRound a : ℤ) : ℚ) else none
  | none => none

/-- Hours assembly in `handleSubmit`: `hltbData?.mainStoryHours || null`.
A present `0` collapses to `null` by JS truthiness. -/
def assembledHltbHours (hltbData : Option HltbResult) : Option ℚ :=
  match hltbData with
  | some d => if d.mainStoryHours ≠ 0 then some d.mainStoryHours else none
  | none => none

/-- Days-since-epoch to civil (proleptic Gregorian, UTC) year, modelling
`new Date(ms).getFullYear()` for the release-year field. -/
def civilYear (days : ℤ) : ℤ :=
  let z := days + 719468
  let era := (if z ≥ 0 then z else z - 146096) / 146097
  let doe := z - era * 146097
  let yoe := (doe - doe / 1460 + doe / 36524 - doe / 146096) / 365
  let y := yoe + era * 400
  let doy := doe - (365 * yoe + yoe / 4 - yoe / 100)
  let mp := (5 * doy + 2) / 153
  let m := if mp < 10 then mp + 3 else mp - 9
  if m ≤ 2 then y + 1 else y

/-- Model of `new Date(ts * 1000).getFullYear()` (UTC convention). -/
def jsGetFullYear (ms : ℤ) : ℤ := civilYear (Int.fdiv ms 86400000)

/-- Terminal record handed to the note writer (`GameData` in the source). -/
structure GameData where
  title : List Char
  platform : List Char
  priority : List Char
  rating : Option ℚ
  hltbHours : Option ℚ
  efficiency : Option ℚ
  coverUrl : Option (List Char)
  description : Option (List Char)
  igdbId : Nat
  genres : List (List Char)
  releaseYear : Option ℤ
deriving Repr, DecidableEq

/-- The `GameData` assembly performed by `AddGameModal.handleSubmit` after
the IGDB details, HLTB data and cover URL have been fetched. -/
def assembleGameData (gameDetails : IgdbGame) (hltbData : Option HltbResult)
    (coverUrl : Option (List Char)) (platform priority : List Char) : GameData :=
  let rating := assembledRating gameDetails.aggregated_rating
  let hltbHours := assembledHltbHours hltbData
  { title := gameDetails.name
    platform := platform
    priority := priority
    rating := rating
    hltbHours := hltbHours
    efficiency := calculateEfficiency rating hltbHours
    coverUrl := coverUrl
    description :=
      if jsTruthyStr gameDetails.summary then gameDetails.summary
      else if jsTruthyStr gameDetails.storyline then gameDetails.storyline
      else none
    igdbId := gameDetails.id
    genres := gameDetails.genres
    releaseYear :=
      match gameDetails.first_release_date with
      | some ts => if ts ≠ 0 then some (jsGetFullYear (ts * 1000)) else none
      | none => none }

/-! ## Theorems -/

/-- Helper: presence characterisation of `calculateEfficiency`. -/
theorem calculateEfficiency_isSome_iff (r h : Option ℚ) :
    (calculateEfficiency r h).isSome ↔
      ((∃ rv, r = some rv ∧ rv ≠ 0) ∧ (∃ hv, h = some hv ∧ 0 < hv)) := by
  cases r with
  | none => simp [calculateEfficiency]
  | some rv =>
    cases h with
    | none => simp [calculateEfficiency]
    | some hv =>
      by_cases hcond : rv ≠ 0 ∧ hv ≠ 0 ∧ hv > 0
      · have heq : calculateEfficiency (some rv) (some hv) =
            some ((jsRound (rv / hv * 100) : ℚ) / 100) := by
          simp only [calculateEfficiency, if_pos hcond]
        rw [heq]
        simp only [Option.isSome_some, true_iff]
        exact ⟨⟨rv, rfl, hcond.1⟩, ⟨hv, rfl, hcond.2.2⟩⟩
      · have heq : calculateEfficiency (some rv) (some hv) = none := by
          simp only [calculateEfficiency, if_neg hcond]
        rw [heq]
        constructor
        · intro habs; simp at habs
        · rintro ⟨⟨rv2, hrv, hne⟩, ⟨hv2, hhv, hpos⟩⟩
          cases hrv; cases hhv
          exact absurd ⟨hne, ne_of_gt hpos, hpos⟩ hcond

/-- Helper: value of a present efficiency. -/
theorem calculateEfficiency_eq_round2 (rv hv e : ℚ)
    (he : calculateEfficiency (some rv) (some hv) = some e) :
    e = spec_round2 (rv / hv) := by
  simp only [calculateEfficiency] at he
  split_ifs at he with hcond
  cases he; rfl

/-- C7: for every duration d ≥ 0 in seconds,
secondsToHours(d) = round(d/3600, 1), and secondsToHours(0) = 0 — a
present zero value, not an absent result. -/
theorem secondsToHours_spec (d : ℚ) (hd : 0 ≤ d) :
    secondsToHours d = spec_round1 (d / 3600) ∧ secondsToHours 0 = 0 := by
  have hzero : secondsToHours 0 = 0 := by simp [secondsToHours]
  refine ⟨?_, hzero⟩
  by_cases h : d = 0
  · subst h
    rw [hzero]
    norm_num [spec_round1, jsRound]
  · simp [secondsToHours, spec_round1, h]

/-- Witness for C7 at d = 7200 (two hours). -/
theorem secondsToHours_spec_witness :
    secondsToHours 7200 = spec_round1 (7200 / 3600) ∧ secondsToHours 0 = 0 :=
  secondsToHours_spec 7200 (by norm_num)

/-- C8: with an unset (empty) API key, both searchGames and getGrids fail
with the configuration error and issue no network call; with a key set,
an empty result is returned as a normal value after one call. -/
theorem sgdb_missing_key_config_error
    (respG : Except (List Char) (SgdbEnvelope (List SgdbGame)))
    (respR : Except (List Char) (SgdbEnvelope (List SgdbGrid)))
    (query : List Char) (gameId : Nat) (opts : GridOpts) (apiKey : List Char)
    (hk : apiKey ≠ []) :
    (sgdbSearchGames [] respG query = (Except.error SgdbError.config, []) ∧
     getGrids [] respR gameId opts = (Except.error SgdbError.config, [])) ∧
    sgdbSearchGames apiKey (Except.ok ⟨true, [], []⟩) query =
      (Except.ok [], [SgdbCall.search query]) := by
  have hk' : apiKey.isEmpty = false := List.isEmpty_eq_false.mpr hk
  refine ⟨⟨?_, ?_⟩, ?_⟩ <;>
    simp [sgdbSearchGames, getGrids, sgdbRequest, hk']

/-- Witness for C8 with a one-character key and query. -/
theorem sgdb_missing_key_config_error_witness :
    (sgdbSearchGames [] (Except.ok ⟨true, [], []⟩) ['q'] =
        (Except.error SgdbError.config, []) ∧
     getGrids [] (Except.ok ⟨true, [], []⟩) 7 fallbackGridOpts =
        (Except.error SgdbError.config, [])) ∧
    sgdbSearchGames ['k'] (Except.ok ⟨true, [], []⟩) ['q'] =
      (Except.ok [], [SgdbCall.search ['q']]) :=
  sgdb_missing_key_config_error (Except.ok ⟨true, [], []⟩)
    (Except.ok ⟨true, [], []⟩) ['q'] 7 fallbackGridOpts ['k'] (by decide)

/-- C9: an HLTB candidate whose main-story duration is zero seconds maps
to a present zero hours at the client, which the orchestrator collapses
to an absent hltbHours, making efficiency absent as well. -/
theorem hltb_zero_hours_collapse (g : HltbGameData) (hg : g.comp_main = 0)
    (gd : IgdbGame) (cover : Option (List Char)) (p pr : List Char) :
    (mapToResult g).mainStoryHours = 0 ∧
    (assembleGameData gd (some (mapToResult g)) cover p pr).hltbHours = none ∧
    (assembleGameData gd (some (mapToResult g)) cover p pr).efficiency = none := by
  have h0 : (mapToResult g).mainStoryHours = 0 := by
    simp [mapToResult, hg, secondsToHours]
  have hh : assembledHltbHours (some (mapToResult g)) = none := by
    simp [assembledHltbHours, h0]
  refine ⟨h0, hh, ?_⟩
  show calculateEfficiency (assembledRating gd.aggregated_rating)
      (assembledHltbHours (some (mapToResult g))) = none
  rw [hh]
  cases assembledRating gd.aggregated_rating <;> simp [calculateEfficiency]

/-- Witness for C9 at a concrete zero-duration candidate. -/
theorem hltb_zero_hours_collapse_witness :
    (mapToResult ⟨1, ['z'], [], 0, 0, 0, 0, 0⟩).mainStoryHours = 0 ∧
    (assembleGameData ⟨1, ['z'], none, none, some 90, none, none, []⟩
        (some (mapToResult ⟨1, ['z'], [], 0, 0, 0, 0, 0⟩)) none [] []).hltbHours = none ∧
    (assembleGameData ⟨1, ['z'], none, none, some 90, none, none, []⟩
        (some (mapToResult ⟨1, ['z'], [], 0, 0, 0, 0, 0⟩)) none [] []).efficiency = none :=
  hltb_zero_hours_collapse ⟨1, ['z'], [], 0, 0, 0, 0, 0⟩ rfl
    ⟨1, ['z'], none, none, some 90, none, none, []⟩ none [] []

/-- C1 counterexample: with a critic rating of 0.3 (truthy, so it survives
assembly and rounds to the present value 0) and ten main-story hours, the
assembled rating and hours are both present and hours > 0, yet the
efficiency is absent — the claimed biconditional fails because
calculateEfficiency tests JS truthiness of the rating, not presence. -/
theorem efficiency_iff_counterexample :
    ¬ (∀ (gd : IgdbGame) (hl : Option HltbResult) (cover : Option (List Char))
        (p pr : List Char),
        ((assembleGameData gd hl cover p pr).efficiency.isSome ↔
          ((assembleGameData gd hl cover p pr).rating.isSome ∧
           ∃ hv, (assembleGameData gd hl cover p pr).hltbHours = some hv ∧ 0 < hv))) := by
  intro hclaim
  have h := hclaim ⟨1, [], none, none, some (3/10), none, none, []⟩
      (some (mapToResult ⟨1, [], [], 36000, 0, 0, 0, 0⟩)) none [] []
  have hrat : assembledRating (some (3/10 : ℚ)) = some 0 := by
    norm_num [assembledRating, jsRound]
  have hmain : (mapToResult ⟨1, [], [], 36000, 0, 0, 0, 0⟩).mainStoryHours = 10 := by
    norm_num [mapToResult, secondsToHours, jsRound]
  have hh : assembledHltbHours (some (mapToResult ⟨1, [], [], 36000, 0, 0, 0, 0⟩)) =
      some 10 := by
    norm_num [assembledHltbHours, hmain]
  have heff : calculateEfficiency (some (0 : ℚ)) (some 10) = none := by
    simp [calculateEfficiency]
  have hfields :
      (assembleGameData ⟨1, [], none, none, some (3/10), none, none, []⟩
        (some (mapToResult ⟨1, [], [], 36000, 0, 0, 0, 0⟩)) none [] []).efficiency =
        calculateEfficiency (assembledRating (some (3/10 : ℚ)))
          (assembledHltbHours (some (mapToResult ⟨1, [], [], 36000, 0, 0, 0, 0⟩))) := rfl
  rw [hfields, hrat, hh, heff] at h
  have hr2 :
      (assembleGameData ⟨1, [], none, none, some (3/10), none, none, []⟩
        (some (mapToResult ⟨1, [], [], 36000, 0, 0, 0, 0⟩)) none [] []).rating =
        some 0 := by
    show assembledRating (some (3/10 : ℚ)) = some 0
    exact hrat
  have hh2 :
      (assembleGameData ⟨1, [], none, none, some (3/10), none, none, []⟩
        (some (mapToResult ⟨1, [], [], 36000, 0, 0, 0, 0⟩)) none [] []).hltbHours =
        some 10 := by
    show assembledHltbHours (some (mapToResult ⟨1, [], [], 36000, 0, 0, 0, 0⟩)) = some 10
    exact hh
  rw [hr2, hh2] at h
  have : (none : Option ℚ).isSome = true := by
    rw [h]
    exact ⟨rfl, 10, rfl, by norm_num⟩
  simp at this

/-- C1 amended: for every pair assembled by the orchestrator, efficiency
is present iff the rating is present AND NONZERO, hours are present and
hours > 0 (a present rating of 0 — reachable when the critic rating
rounds to 0 — yields an absent efficiency); when present,
efficiency = round(rating/hours, 2). -/
theorem assembled_efficiency_iff (gd : IgdbGame) (hl : Option HltbResult)
    (cover : Option (List Char)) (p pr : List Char) :
    ((assembleGameData gd hl cover p pr).efficiency.isSome ↔
      ((∃ rv, (assembleGameData gd hl cover p pr).rating = some rv ∧ rv ≠ 0) ∧
       (∃ hv, (assembleGameData gd hl cover p pr).hltbHours = some hv ∧ 0 < hv))) ∧
    (∀ rv hv e, (assembleGameData gd hl cover p pr).rating = some rv →
      (assembleGameData gd hl cover p pr).hltbHours = some hv →
      (assembleGameData gd hl cover p pr).efficiency = some e →
      e = spec_round2 (rv / hv)) := by
  have hfield : (assembleGameData gd hl cover p pr).efficiency =
      calculateEfficiency (assembleGameData gd hl cover p pr).rating
        (assembleGameData gd hl cover p pr).hltbHours := rfl
  constructor
  · rw [hfield]
    exact calculateEfficiency_isSome_iff _ _
  · intro rv hv e hr hh he
    rw [hfield, hr, hh] at he
    exact calculateEfficiency_eq_round2 rv hv e he

/-- C2 counterexample: when the styled query is empty and the unfiltered
fallback returns [score 1, score 5], getBestGrid returns the score-1
candidate (the raw first element) — not the maximum-score one. -/
theorem getBestGrid_max_counterexample :
    ¬ (∀ (apiKey : List Char) (e2 : SgdbEnvelope (List SgdbGrid)) (gameId : Nat)
        (g : SgdbGrid),
        apiKey ≠ [] → e2.success = true → e2.data ≠ [] →
        (getBestGrid apiKey (Except.ok ⟨true, [], []⟩) (Except.ok e2) gameId).1 =
          some g →
        ∀ g2 ∈ e2.data, g2.score ≤ g.score) := by
  intro hclaim
  have h := hclaim ['k']
      ⟨true, [⟨1, 1, [], 0, 0, false, false, []⟩, ⟨2, 5, [], 0, 0, false, false, []⟩], []⟩
      7 ⟨1, 1, [], 0, 0, false, false, []⟩
      (by decide) rfl (by decide) (by decide)
  have h5 := h ⟨2, 5, [], 0, 0, false, false, []⟩ (by decide)
  revert h5
  decide

/-- C2 amended: when the styled/content-filtered query returns zero
candidates, getBestGrid issues exactly two queries and returns the FIRST
candidate of the style-unfiltered fallback list as delivered by the
service (no score sorting in the fallback branch), or absent when that
list is empty too. -/
theorem getBestGrid_fallback_first (apiKey : List Char)
    (e2 : SgdbEnvelope (List SgdbGrid)) (gameId : Nat)
    (hk : apiKey ≠ []) (h2 : e2.success = true) :
    getBestGrid apiKey (Except.ok ⟨true, [], []⟩) (Except.ok e2) gameId =
      (e2.data.head?,
       [SgdbCall.grids gameId preferredGridOpts,
        SgdbCall.grids gameId fallbackGridOpts]) := by
  have hk' : apiKey.isEmpty = false := List.isEmpty_eq_false.mpr hk
  simp [getBestGrid, getGrids, sgdbRequest, hk', h2]

/-- Witness for the amended C2 at a two-element fallback list. -/
theorem getBestGrid_fallback_first_witness :
    getBestGrid ['k'] (Except.ok ⟨true, [], []⟩)
        (Except.ok ⟨true, [⟨1, 1, [], 0, 0, false, false, []⟩,
                           ⟨2, 5, [], 0, 0, false, false, []⟩], []⟩) 7 =
      (some ⟨1, 1, [], 0, 0, false, false, []⟩,
       [SgdbCall.grids 7 preferredGridOpts, SgdbCall.grids 7 fallbackGridOpts]) :=
  getBestGrid_fallback_first ['k']
    ⟨true, [⟨1, 1, [], 0, 0, false, false, []⟩, ⟨2, 5, [], 0, 0, false, false, []⟩], []⟩
    7 (by decide) rfl

/-- Helper: while the cached token is truthy and every call's clock reads
before the recorded expiry, a run of searches issues no token request and
one search request per call, leaving the client state unchanged. -/
theorem runIgdbSearches_cached (cid cs : List Char)
    (rest : List (IgdbSearchEnv × List Char)) (st : IgdbState)
    (htok : jsTruthyStr st.accessToken = true)
    (hrest : ∀ p ∈ rest, p.1.base.now < st.tokenExpiry) :
    runIgdbSearches cid cs rest st = Except.ok (st, 0, rest.length) := by
  induction rest with
  | nil => rfl
  | cons p rest ih =>
    obtain ⟨env, q⟩ := p
    have hnow : env.base.now < st.tokenExpiry := hrest (env, q) (by simp)
    have hens : ensureAccessToken cid cs env.base st = Except.ok (st, 0) := by
      simp [ensureAccessToken, htok, hnow]
    have hsearch : igdbSearchGames cid cs env st q 10 =
        Except.ok (env.results, st, 0, 1) := by
      simp [igdbSearchGames, hens]
    have hrec := ih (fun p hp => hrest p (by simp [hp]))
    simp [runIgdbSearches, hsearch, hrec]
    omega

/-- C6: the IGDB client records the token expiry as acquisition time plus
the server-declared expires_in minus five minutes (300 s, in ms), and a
sequence of searches whose clock readings all stay below that recorded
expiry issues exactly one token request and one search request per call. -/
theorem igdb_token_reuse (cid cs q0 : List Char) (e0 : IgdbSearchEnv)
    (rest : List (IgdbSearchEnv × List Char))
    (hcid : cid ≠ []) (hcs : cs ≠ []) (htok : e0.base.access_token ≠ [])
    (hrest : ∀ p ∈ rest,
      p.1.base.now < e0.base.now + (e0.base.expires_in - 300) * 1000) :
    runIgdbSearches cid cs ((e0, q0) :: rest) igdbInitialState =
      Except.ok
        ({ accessToken := some e0.base.access_token
           tokenExpiry := e0.base.now + (e0.base.expires_in - 300) * 1000 },
         1, 1 + rest.length) := by
  have hcid' : cid.isEmpty = false := List.isEmpty_eq_false.mpr hcid
  have hcs' : cs.isEmpty = false := List.isEmpty_eq_false.mpr hcs
  have hens : ensureAccessToken cid cs e0.base igdbInitialState =
      Except.ok
        ({ accessToken := some e0.base.access_token
           tokenExpiry := e0.base.now + (e0.base.expires_in - 300) * 1000 }, 1) := by
    simp [ensureAccessToken, igdbInitialState, jsTruthyStr, hcid', hcs']
  have hsearch : igdbSearchGames cid cs e0 igdbInitialState q0 10 =
      Except.ok (e0.results,
        { accessToken := some e0.base.access_token
          tokenExpiry := e0.base.now + (e0.base.expires_in - 300) * 1000 }, 1, 1) := by
    simp [igdbSearchGames, hens]
  have htok' : jsTruthyStr (some e0.base.access_token) = true := by
    simp [jsTruthyStr, htok]
  have hrec := runIgdbSearches_cached cid cs rest
      { accessToken := some e0.base.access_token
        tokenExpiry := e0.base.now + (e0.base.expires_in - 300) * 1000 }
      htok' hrest
  simp [runIgdbSearches, hsearch, hrec]

/-- Witness for C6: three searches, one token request, three search
requests, expiry recorded 300 s short of the declared hour. -/
theorem igdb_token_reuse_witness :
    runIgdbSearches ['i'] ['s']
        ((⟨⟨1000, ['t'], 3600⟩, []⟩, ['a']) ::
         [(⟨⟨2000, ['u'], 3600⟩, []⟩, ['b']), (⟨⟨3000, ['v'], 3600⟩, []⟩, ['c'])])
        igdbInitialState =
      Except.ok ({ accessToken := some ['t'], tokenExpiry := 1000 + (3600 - 300) * 1000 },
        1, 1 + 2) :=
  igdb_token_reuse ['i'] ['s'] ['a'] ⟨⟨1000, ['t'], 3600⟩, []⟩
    [(⟨⟨2000, ['u'], 3600⟩, []⟩, ['b']), (⟨⟨3000, ['v'], 3600⟩, []⟩, ['c'])]
    (by decide) (by decide) (by decide)
    (by intro p hp; fin_cases hp <;> decide)

/-- Helper: truthiness of a missing string. -/
theorem jsTruthyStr_none : jsTruthyStr none = false := rfl

/-- Helper: truthiness of a present string. -/
theorem jsTruthyStr_some (l : List Char) : jsTruthyStr (some l) = !l.isEmpty := rfl

/-- Helper: when `ensureInitialized` reports failure, the token field was
just overwritten by a failed fetch and is `none`. -/
theorem ensureInitialized_false_token (env : HltbEnv) (st : HltbState)
    (h : (ensureInitialized env st).1 = false) :
    (ensureInitialized env st).2.1.authToken = none := by
  by_cases ht : jsTruthyStr st.authToken
  · by_cases hu : st.searchUrl = "/api/search".data <;>
      simp [ensureInitialized, ht, hu] at h
  · rw [Bool.not_eq_true] at ht
    cases hf : env.tokenResp with
    | none =>
      simp [ensureInitialized, fetchAuthToken, ht, hf, jsTruthyStr_none]
    | some t =>
      by_cases hte : t.isEmpty
      · simp [ensureInitialized, fetchAuthToken, ht, hf, hte, jsTruthyStr_none]
      · rw [Bool.not_eq_true] at hte
        by_cases hu : st.searchUrl = "/api/search".data <;>
          simp [ensureInitialized, fetchAuthToken, ht, hf, hte,
            jsTruthyStr_some, hu] at h

/-- Helper: a call made with a cleared token always begins by fetching a
fresh token, and never runs endpoint discovery when the cached search URL
differs from the default. -/
theorem searchGame_next_calls (nfd : Char → List Char) (env2 : HltbEnv)
    (st1 : HltbState) (name2 : List Char) (h : st1.authToken = none) :
    HltbCall.tokenFetch ∈ (searchGame nfd env2 st1 name2).2.2 ∧
    (st1.searchUrl ≠ "/api/search".data →
      HltbCall.discovery ∉ (searchGame nfd env2 st1 name2).2.2) := by
  cases hf : env2.tokenResp with
  | none =>
    constructor <;>
      simp [searchGame, ensureInitialized, fetchAuthToken, h, hf, jsTruthyStr_none]
  | some t =>
    by_cases hte : t.isEmpty
    · constructor <;>
        simp [searchGame, ensureInitialized, fetchAuthToken, h, hf, hte,
          jsTruthyStr_none]
    · rw [Bool.not_eq_true] at hte
      by_cases hu : st1.searchUrl = "/api/search".data
      · refine ⟨?_, fun hcontra => absurd hu hcontra⟩
        cases hs : env2.searchResp with
        | error m =>
          simp [searchGame, ensureInitialized, fetchAuthToken, discoverSearchUrl,
            h, hf, hte, hu, hs, jsTruthyStr_none, jsTruthyStr_some]
        | ok data =>
          cases hsel : selectBestMatch nfd name2 data <;>
            simp [searchGame, ensureInitialized, fetchAuthToken, discoverSearchUrl,
              h, hf, hte, hu, hs, hsel, jsTruthyStr_none, jsTruthyStr_some]
      · cases hs : env2.searchResp with
        | error m =>
          constructor <;>
            simp [searchGame, ensureInitialized, fetchAuthToken,
              h, hf, hte, hu, hs, jsTruthyStr_none, jsTruthyStr_some]
        | ok data =>
          cases hsel : selectBestMatch nfd name2 data <;>
            (constructor <;>
              simp [searchGame, ensureInitialized, fetchAuthToken,
                h, hf, hte, hu, hs, hsel, jsTruthyStr_none, jsTruthyStr_some])

/-- C5 amended: on any exception raised by the search POST, searchGame
returns absent and clears the cached auth token, so the next call
re-authenticates from scratch; however the catch leaves the discovered
search URL in place, so endpoint discovery is re-run on the next call only
when the cached URL is still the default '/api/search'. -/
theorem hltb_search_error_spec (nfd : Char → List Char) (env : HltbEnv)
    (st : HltbState) (name e : List Char)
    (herr : env.searchResp = Except.error e) :
    (searchGame nfd env st name).1 = none ∧
    (searchGame nfd env st name).2.1.authToken = none ∧
    (∀ (env2 : HltbEnv) (name2 : List Char),
      HltbCall.tokenFetch ∈
        (searchGame nfd env2 (searchGame nfd env st name).2.1 name2).2.2) ∧
    ((searchGame nfd env st name).2.1.searchUrl ≠ "/api/search".data →
      ∀ (env2 : HltbEnv) (name2 : List Char),
        HltbCall.discovery ∉
          (searchGame nfd env2 (searchGame nfd env st name).2.1 name2).2.2) := by
  have hmain : (searchGame nfd env st name).1 = none ∧
      (searchGame nfd env st name).2.1.authToken = none := by
    rcases hEI : ensureInitialized env st with ⟨ok, stI, c1⟩
    cases ok with
    | false =>
      have htok := ensureInitialized_false_token env st (by rw [hEI])
      rw [hEI] at htok
      simp only [] at htok
      simp [searchGame, hEI, htok]
    | true => simp [searchGame, hEI, herr]
  refine ⟨hmain.1, hmain.2, ?_, ?_⟩
  · intro env2 name2
    exact (searchGame_next_calls nfd env2 _ name2 hmain.2).1
  · intro hu env2 name2
    exact (searchGame_next_calls nfd env2 _ name2 hmain.2).2 hu

/-- Witness for the amended C5 at a concrete errored search with a cached
non-default search URL. -/
theorem hltb_search_error_spec_witness :
    (searchGame (fun c => [c]) ⟨some ['u'], some ['x'], Except.error ['n']⟩
      ⟨some ['t'], "/api/seek".data⟩ ['z']).1 = none ∧
    (searchGame (fun c => [c]) ⟨some ['u'], some ['x'], Except.error ['n']⟩
      ⟨some ['t'], "/api/seek".data⟩ ['z']).2.1.authToken = none :=
  ⟨(hltb_search_error_spec (fun c => [c]) ⟨some ['u'], some ['x'], Except.error ['n']⟩
      ⟨some ['t'], "/api/seek".data⟩ ['z'] ['n'] rfl).1,
   (hltb_search_error_spec (fun c => [c]) ⟨some ['u'], some ['x'], Except.error ['n']⟩
      ⟨some ['t'], "/api/seek".data⟩ ['z'] ['n'] rfl).2.1⟩

/-- C5 counterexample: a successfully discovered non-default search URL
('/api/seek') survives the error-handling catch, and the next call does
NOT re-run discovery: only the token is re-fetched.  The first conjunct
shows the non-default URL is reachable from the initial state through the
client's own discovery logic. -/
theorem hltb_rediscovery_counterexample :
    ((searchGame (fun c => [c]) ⟨some ['t'], some "seek".data, Except.ok []⟩
        hltbInitialState ['z']).2.1 = ⟨some ['t'], "/api/seek".data⟩) ∧
    ¬ (∀ (nfd : Char → List Char) (env : HltbEnv) (st : HltbState)
        (name e : List Char) (env2 : HltbEnv) (name2 : List Char),
        env.searchResp = Except.error e →
        HltbCall.discovery ∈
          (searchGame nfd env2 (searchGame nfd env st name).2.1 name2).2.2) := by
  constructor
  · decide
  · intro hclaim
    have h := hclaim (fun c => [c]) ⟨some ['u'], some ['x'], Except.error ['n']⟩
        ⟨some ['t'], "/api/seek".data⟩ ['z'] ['n']
        ⟨some ['v'], some ['y'], Except.ok []⟩ ['z'] rfl
    revert h
    decide

/-- Helper: the fuzzy comparator returns one of its two arguments, never
increases the distance, and on equal distance never decreases the
popularity counter. -/
theorem fuzzyStep_spec (nfd : Char → List Char) (nq : List Char)
    (b c : HltbGameData) :
    (fuzzyStep nfd nq b c = b ∨ fuzzyStep nfd nq b c = c) ∧
    hltbDist nfd nq (fuzzyStep nfd nq b c) ≤ hltbDist nfd nq b ∧
    hltbDist nfd nq (fuzzyStep nfd nq b c) ≤ hltbDist nfd nq c ∧
    (hltbDist nfd nq b = hltbDist nfd nq (fuzzyStep nfd nq b c) →
      b.comp_all_count ≤ (fuzzyStep nfd nq b c).comp_all_count) ∧
    (hltbDist nfd nq c = hltbDist nfd nq (fuzzyStep nfd nq b c) →
      c.comp_all_count ≤ (fuzzyStep nfd nq b c).comp_all_count) := by
  simp only [fuzzyStep, hltbDist]
  split_ifs with h1 h2 h3
  · exact ⟨Or.inr rfl, by omega, by omega,
      fun _ => le_of_lt h2, fun _ => le_refl _⟩
  · exact ⟨Or.inl rfl, by omega, by omega,
      fun _ => le_refl _, fun _ => not_lt.mp h2⟩
  · exact ⟨Or.inr rfl, by omega, by omega,
      fun h => absurd h (by omega), fun _ => le_refl _⟩
  · exact ⟨Or.inl rfl, by omega, by omega,
      fun _ => le_refl _, fun h => absurd h (by omega)⟩

/-- Helper: the seeded fold of the fuzzy comparator returns an element of
the seed-plus-list pool with minimal edit distance, carrying the largest
popularity counter among pool elements at that minimal distance. -/
theorem fuzzyFold_spec (nfd : Char → List Char) (nq : List Char)
    (l : List HltbGameData) (b : HltbGameData) :
    (l.foldl (fuzzyStep nfd nq) b = b ∨ l.foldl (fuzzyStep nfd nq) b ∈ l) ∧
    (hltbDist nfd nq (l.foldl (fuzzyStep nfd nq) b) ≤ hltbDist nfd nq b ∧
     ∀ g ∈ l, hltbDist nfd nq (l.foldl (fuzzyStep nfd nq) b) ≤ hltbDist nfd nq g) ∧
    ((hltbDist nfd nq b = hltbDist nfd nq (l.foldl (fuzzyStep nfd nq) b) →
        b.comp_all_count ≤ (l.foldl (fuzzyStep nfd nq) b).comp_all_count) ∧
     ∀ g ∈ l, hltbDist nfd nq g = hltbDist nfd nq (l.foldl (fuzzyStep nfd nq) b) →
        g.comp_all_count ≤ (l.foldl (fuzzyStep nfd nq) b).comp_all_count) := by
  induction l generalizing b with
  | nil => simp
  | cons c l ih =>
    obtain ⟨smem, sdb, sdc, scb, scc⟩ := fuzzyStep_spec nfd nq b c
    obtain ⟨rmem, ⟨rds, rdl⟩, ⟨rcs, rcl⟩⟩ := ih (fuzzyStep nfd nq b c)
    simp only [List.foldl_cons]
    refine ⟨?_, ⟨le_trans rds sdb, ?_⟩, ⟨?_, ?_⟩⟩
    · rcases rmem with h | h
      · rcases smem with h2 | h2
        · exact Or.inl (h.trans h2)
        · exact Or.inr (List.mem_cons.mpr (Or.inl (h.trans h2)))
      · exact Or.inr (List.mem_cons.mpr (Or.inr h))
    · intro g hgmem
      rcases List.mem_cons.mp hgmem with rfl | hgl
      · exact le_trans rds sdc
      · exact rdl g hgl
    · intro hdbr
      have e1 : hltbDist nfd nq b =
          hltbDist nfd nq (fuzzyStep nfd nq b c) := by omega
      have e2 : hltbDist nfd nq (fuzzyStep nfd nq b c) =
          hltbDist nfd nq (l.foldl (fuzzyStep nfd nq) (fuzzyStep nfd nq b c)) := by
        omega
      exact le_trans (scb e1) (rcs e2)
    · intro g hgmem hdgr
      rcases List.mem_cons.mp hgmem with rfl | hgl
      · have e1 : hltbDist nfd nq g =
            hltbDist nfd nq (fuzzyStep nfd nq b g) := by omega
        have e2 : hltbDist nfd nq (fuzzyStep nfd nq b g) =
            hltbDist nfd nq (l.foldl (fuzzyStep nfd nq) (fuzzyStep nfd nq b g)) := by
          omega
        exact le_trans (scc e1) (rcs e2)
      · exact rcl g hgl hdgr

/-- C3: whenever some candidate's normalized name equals the normalized
query exactly, searchGame selects an exact-matching candidate, regardless
of the edit distances or popularity counters of the other candidates. -/
theorem hltb_exact_match_wins (nfd : Char → List Char) (env : HltbEnv)
    (st : HltbState) (gameName : List Char) (data : List HltbGameData)
    (g : HltbGameData)
    (hresp : env.searchResp = Except.ok data)
    (htok : jsTruthyStr st.authToken = true)
    (hg : g ∈ data)
    (hexact : hltbNormalize nfd g.game_name = hltbNormalize nfd gameName) :
    ∃ gb, selectBestMatch nfd gameName data = some gb ∧
      hltbNormalize nfd gb.game_name = hltbNormalize nfd gameName ∧
      (searchGame nfd env st gameName).1 = some (mapToResult gb) := by
  have hfs : (data.find? (fun x =>
      hltbNormalize nfd x.game_name == hltbNormalize nfd gameName)).isSome := by
    rw [List.find?_isSome]
    exact ⟨g, hg, by simp [hexact]⟩
  obtain ⟨gb, hgb⟩ := Option.isSome_iff_exists.mp hfs
  have hgbP := List.find?_some hgb
  have hgbEq : hltbNormalize nfd gb.game_name = hltbNormalize nfd gameName := by
    simpa using hgbP
  have hsel : selectBestMatch nfd gameName data = some gb := by
    cases data with
    | nil => cases hg
    | cons d ds => simp [selectBestMatch, hgb]
  refine ⟨gb, hsel, hgbEq, ?_⟩
  by_cases hu : st.searchUrl = "/api/search".data <;>
    simp [searchGame, ensureInitialized, htok, hu, hresp, hsel]

/-- Witness for C3: the punctuation-insensitive candidate 'Zelda:  Breath'
matches the query 'zelda breath' exactly after normalization. -/
theorem hltb_exact_match_wins_witness :
    ∃ gb, selectBestMatch (fun c => [c]) "zelda breath".data
        [⟨1, "Zelda:  Breath".data, [], 0, 0, 0, 0, 0⟩] = some gb ∧
      hltbNormalize (fun c => [c]) gb.game_name =
        hltbNormalize (fun c => [c]) "zelda breath".data ∧
      (searchGame (fun c => [c])
        ⟨some ['t'], some ['x'],
         Except.ok [⟨1, "Zelda:  Breath".data, [], 0, 0, 0, 0, 0⟩]⟩
        ⟨some ['t'], "/api/seek".data⟩ "zelda breath".data).1 =
        some (mapToResult gb) :=
  hltb_exact_match_wins (fun c => [c])
    ⟨some ['t'], some ['x'],
     Except.ok [⟨1, "Zelda:  Breath".data, [], 0, 0, 0, 0, 0⟩]⟩
    ⟨some ['t'], "/api/seek".data⟩ "zelda breath".data
    [⟨1, "Zelda:  Breath".data, [], 0, 0, 0, 0, 0⟩]
    ⟨1, "Zelda:  Breath".data, [], 0, 0, 0, 0, 0⟩
    rfl rfl (by decide) (by decide)

/-- C4: with no exact normalized match in a non-empty candidate list,
searchGame selects a candidate of minimal Levenshtein distance to the
normalized query, and among candidates at that minimal distance one with
the largest comp_all_count popularity counter. -/
theorem hltb_fuzzy_match_spec (nfd : Char → List Char) (env : HltbEnv)
    (st : HltbState) (gameName : List Char) (data : List HltbGameData)
    (hresp : env.searchResp = Except.ok data)
    (htok : jsTruthyStr st.authToken = true)
    (hne : data ≠ [])
    (hnoexact : ∀ g ∈ data,
      hltbNormalize nfd g.game_name ≠ hltbNormalize nfd gameName) :
    ∃ gb, selectBestMatch nfd gameName data = some gb ∧ gb ∈ data ∧
      (∀ g ∈ data, hltbDist nfd (hltbNormalize nfd gameName) gb ≤
        hltbDist nfd (hltbNormalize nfd gameName) g) ∧
      (∀ g ∈ data, hltbDist nfd (hltbNormalize nfd gameName) g =
          hltbDist nfd (hltbNormalize nfd gameName) gb →
        g.comp_all_count ≤ gb.comp_all_count) ∧
      (searchGame nfd env st gameName).1 = some (mapToResult gb) := by
  have hfind : data.find? (fun x =>
      hltbNormalize nfd x.game_name == hltbNormalize nfd gameName) = none := by
    rw [List.find?_eq_none]
    intro x hx
    simpa using hnoexact x hx
  cases data with
  | nil => exact absurd rfl hne
  | cons d ds =>
    have hsel : selectBestMatch nfd gameName (d :: ds) =
        some ((d :: ds).foldl
          (fuzzyStep nfd (hltbNormalize nfd gameName)) d) := by
      simp [selectBestMatch, hfind]
    obtain ⟨rmem, ⟨rdd, rdl⟩, ⟨rcd, rcl⟩⟩ :=
      fuzzyFold_spec nfd (hltbNormalize nfd gameName) (d :: ds) d
    refine ⟨(d :: ds).foldl (fuzzyStep nfd (hltbNormalize nfd gameName)) d,
      hsel, ?_, ?_, ?_, ?_⟩
    · rcases rmem with h | h
      · rw [h]; exact List.mem_cons_self d ds
      · exact h
    · exact rdl
    · exact rcl
    · by_cases hu : st.searchUrl = "/api/search".data <;>
        simp [searchGame, ensureInitialized, htok, hu, hresp, hsel]

/-- Witness for C4: two inexact candidates at equal distance from the
query; the theorem applies with the no-exact-match hypothesis checked by
evaluation. -/
theorem hltb_fuzzy_match_spec_witness :
    ∃ gb, selectBestMatch (fun c => [c]) "cat".data
        [⟨1, "cart".data, [], 0, 0, 0, 0, 3⟩, ⟨2, "carts".data, [], 0, 0, 0, 0, 9⟩] =
        some gb ∧
      gb ∈ [⟨1, "cart".data, [], 0, 0, 0, 0, 3⟩, ⟨2, "carts".data, [], 0, 0, 0, 0, 9⟩] ∧
      (∀ g ∈ [⟨1, "cart".data, [], 0, 0, 0, 0, 3⟩,
              ⟨2, "carts".data, [], 0, 0, 0, 0, 9⟩],
        hltbDist (fun c => [c]) (hltbNormalize (fun c => [c]) "cat".data) gb ≤
          hltbDist (fun c => [c]) (hltbNormalize (fun c => [c]) "cat".data) g) ∧
      (∀ g ∈ [⟨1, "cart".data, [], 0, 0, 0, 0, 3⟩,
              ⟨2, "carts".data, [], 0, 0, 0, 0, 9⟩],
        hltbDist (fun c => [c]) (hltbNormalize (fun c => [c]) "cat".data) g =
          hltbDist (fun c => [c]) (hltbNormalize (fun c => [c]) "cat".data) gb →
        g.comp_all_count ≤ gb.comp_all_count) ∧
      (searchGame (fun c => [c])
        ⟨some ['t'], some ['x'],
         Except.ok [⟨1, "cart".data, [], 0, 0, 0, 0, 3⟩,
                    ⟨2, "carts".data, [], 0, 0, 0, 0, 9⟩]⟩
        ⟨some ['t'], "/api/seek".data⟩ "cat".data).1 = some (mapToResult gb) :=
  hltb_fuzzy_match_spec (fun c => [c])
    ⟨some ['t'], some ['x'],
     Except.ok [⟨1, "cart".data, [], 0, 0, 0, 0, 3⟩,
                ⟨2, "carts".data, [], 0, 0, 0, 0, 9⟩]⟩
    ⟨some ['t'], "/api/seek".data⟩ "cat".data
    [⟨1, "cart".data, [], 0, 0, 0, 0, 3⟩, ⟨2, "carts".data, [], 0, 0, 0, 0, 9⟩]
    rfl rfl (by decide) (by decide)

/-- Helper: a character whose code is in the output alphabet and is
whitespace must be the space itself. -/
theorem outChar_ws_eq_space (c : Char) (ho : isOutChar c = true)
    (hw : isWs c = true) : c = ' ' := by
  have hn : c.toNat = 32 := by
    simp [isOutChar, isWs] at ho hw
    omega
  calc c = Char.ofNat c.toNat := (Char.ofNat_toNat c).symm
  _ = Char.ofNat 32 := by rw [hn]
  _ = ' ' := rfl

/-- Helper: collapsing past a non-whitespace head. -/
theorem collapseWs_cons_not_ws (b : Char) (t : List Char) (h : isWs b = false) :
    collapseWs (b :: t) = b :: collapseWs t := by
  cases t with
  | nil => simp [collapseWs, h]
  | cons c t2 => simp [collapseWs, h]

/-- Helper: every character of the collapsed list is either the space
inserted for a run or a non-whitespace character of the input. -/
theorem mem_collapseWs (l : List Char) (c : Char) (h : c ∈ collapseWs l) :
    c = ' ' ∨ (c ∈ l ∧ isWs c = false) := by
  induction l with
  | nil => simp [collapseWs] at h
  | cons a t ih =>
    cases t with
    | nil =>
      by_cases hw : isWs a
      · simp [collapseWs, hw] at h
        exact Or.inl h
      · simp [collapseWs, hw] at h
        rw [Bool.not_eq_true] at hw
        exact Or.inr ⟨by simp [h], by rw [h]; exact hw⟩
    | cons b t2 =>
      by_cases hab : (isWs a && isWs b) = true
      · rw [show collapseWs (a :: b :: t2) = collapseWs (b :: t2) by
          simp [collapseWs, hab]] at h
        rcases ih h with h1 | ⟨h2, h3⟩
        · exact Or.inl h1
        · exact Or.inr ⟨List.mem_cons_of_mem _ h2, h3⟩
      · rw [show collapseWs (a :: b :: t2) =
            (if isWs a then ' ' else a) :: collapseWs (b :: t2) by
          rw [Bool.not_eq_true] at hab
          simp [collapseWs, hab]] at h
        rcases List.mem_cons.mp h with h1 | h1
        · by_cases hwa : isWs a
          · left
            rw [h1, if_pos hwa]
          · right
            rw [Bool.not_eq_true] at hwa
            rw [h1, if_neg (by simp [hwa])]
            exact ⟨List.mem_cons_self a _, hwa⟩
        · rcases ih h1 with h2 | ⟨h3, h4⟩
          · exact Or.inl h2
          · exact Or.inr ⟨List.mem_cons_of_mem _ h3, h4⟩

/-- Helper: the collapse step never leaves two adjacent whitespace
characters. -/
theorem wsChain_collapseWs (l : List Char) : WsChain (collapseWs l) := by
  induction l with
  | nil => simp [collapseWs, WsChain]
  | cons a t ih =>
    cases t with
    | nil =>
      by_cases hw : isWs a <;> simp [collapseWs, hw, WsChain]
    | cons b t2 =>
      by_cases hab : (isWs a && isWs b) = true
      · rw [WsChain, show collapseWs (a :: b :: t2) = collapseWs (b :: t2) by
          simp [collapseWs, hab]]
        exact ih
      · rw [WsChain, show collapseWs (a :: b :: t2) =
            (if isWs a then ' ' else a) :: collapseWs (b :: t2) by
          rw [Bool.not_eq_true] at hab
          simp [collapseWs, hab]]
        rw [List.chain'_cons']
        refine ⟨?_, ih⟩
        intro y hy
        by_cases hwa : isWs a
        · have hwb : isWs b = false := by
            cases hb : isWs b
            · rfl
            · rw [hwa, hb] at hab
              simp at hab
          rw [collapseWs_cons_not_ws b t2 hwb] at hy
          simp at hy
          subst hy
          exact fun hcon => by rw [hwb] at hcon; exact absurd hcon.2 (by simp)
        · rw [Bool.not_eq_true] at hwa
          rw [if_neg (by simp [hwa])]
          exact fun hcon => by rw [hwa] at hcon; exact absurd hcon.1 (by simp)

/-- Helper: a list whose whitespace is all plain spaces and which has no
two adjacent whitespace characters is a fixed point of the collapse. -/
theorem collapseWs_eq_self (l : List Char)
    (hall : ∀ c ∈ l, isWs c = true → c = ' ') (hch : WsChain l) :
    collapseWs l = l := by
  induction l with
  | nil => rfl
  | cons a t ih =>
    cases t with
    | nil =>
      by_cases hw : isWs a
      · have ha := hall a (List.mem_cons_self a _) hw
        simp [collapseWs, hw, ha]
      · simp [collapseWs, hw]
    | cons b t2 =>
      have hnb : ¬(isWs a = true ∧ isWs b = true) :=
        (List.chain'_cons.mp hch).1
      have hab : (isWs a && isWs b) = false := by
        cases ha : isWs a
        · simp
        · cases hb : isWs b
          · simp
          · exact absurd ⟨ha, hb⟩ hnb
      rw [show collapseWs (a :: b :: t2) =
          (if isWs a then ' ' else a) :: collapseWs (b :: t2) by
        simp [collapseWs, hab]]
      have htail : collapseWs (b :: t2) = b :: t2 :=
        ih (fun c hc hw => hall c (List.mem_cons_of_mem _ hc) hw)
          (List.chain'_cons.mp hch).2
      rw [htail]
      by_cases hwa : isWs a
      · rw [if_pos hwa, (hall a (List.mem_cons_self a _) hwa)]
      · rw [if_neg hwa]

/-- Helper: a chain invariant survives dropWhile. -/
theorem chain'_dropWhile {R : Char → Char → Prop} (p : Char → Bool)
    (l : List Char) (h : List.Chain' R l) : List.Chain' R (l.dropWhile p) := by
  induction l with
  | nil => simp
  | cons a t ih =>
    rw [List.dropWhile_cons]
    by_cases hp : p a
    · simp only [hp, if_true]
      exact ih h.tail
    · simp only [hp, if_false]
      exact h

/-- Helper: the whitespace-adjacency invariant survives reversal. -/
theorem wsChain_reverse (l : List Char) (h : WsChain l) : WsChain l.reverse := by
  rw [WsChain, List.chain'_reverse]
  exact h.imp (fun a b hab hcon => hab ⟨hcon.2, hcon.1⟩)

/-- Helper: the whitespace-adjacency invariant survives trimming. -/
theorem wsChain_jsTrim (l : List Char) (h : WsChain l) : WsChain (jsTrim l) :=
  wsChain_reverse _ (chain'_dropWhile _ _ (wsChain_reverse _ (chain'_dropWhile _ _ h)))

/-- Helper: trimming only removes characters. -/
theorem mem_jsTrim (l : List Char) (c : Char) (h : c ∈ jsTrim l) : c ∈ l := by
  rw [jsTrim, List.mem_reverse] at h
  have h2 := (List.dropWhile_sublist (l := (l.dropWhile isWs).reverse) isWs).mem h
  rw [List.mem_reverse] at h2
  exact (List.dropWhile_sublist isWs).mem h2

/-- Helper: the head surviving a dropWhile fails the dropped predicate. -/
theorem head?_dropWhile_not (p : Char → Bool) (l : List Char) (c : Char)
    (h : (l.dropWhile p).head? = some c) : p c = false := by
  induction l with
  | nil => simp at h
  | cons a t ih =>
    rw [List.dropWhile_cons] at h
    by_cases hp : p a
    · simp only [hp, if_true] at h
      exact ih h
    · simp only [hp, if_false] at h
      cases h
      exact Bool.not_eq_true _ ▸ hp

/-- Helper: the trimmed list is an initial segment of the left-trimmed
list, in the sense that appending the stripped tail recovers it. -/
theorem jsTrim_append (l : List Char) :
    jsTrim l ++ ((l.dropWhile isWs).reverse.takeWhile isWs).reverse =
      l.dropWhile isWs := by
  rw [jsTrim, ← List.reverse_append, List.takeWhile_append_dropWhile,
    List.reverse_reverse]

/-- Helper: a trimmed list never starts with whitespace. -/
theorem jsTrim_head_not_ws (l : List Char) (c : Char)
    (h : (jsTrim l).head? = some c) : isWs c = false := by
  have happ := jsTrim_append l
  have hh : (l.dropWhile isWs).head? = some c := by
    rw [← happ, List.head?_append, h]
    rfl
  exact head?_dropWhile_not isWs l c hh

/-- Helper: a trimmed list never ends with whitespace. -/
theorem jsTrim_last_not_ws (l : List Char) (c : Char)
    (h : (jsTrim l).getLast? = some c) : isWs c = false := by
  rw [jsTrim, List.getLast?_reverse] at h
  exact head?_dropWhile_not isWs _ c h

/-- Helper: a list that neither starts nor ends with whitespace is a fixed
point of the trim. -/
theorem jsTrim_eq_self (l : List Char)
    (hh : ∀ c, l.head? = some c → isWs c = false)
    (hl : ∀ c, l.getLast? = some c → isWs c = false) : jsTrim l = l := by
  have h1 : l.dropWhile isWs = l := by
    cases l with
    | nil => rfl
    | cons a t =>
      rw [List.dropWhile_cons, hh a rfl]
      simp
  rw [jsTrim, h1]
  have h2 : l.reverse.dropWhile isWs = l.reverse := by
    cases hr : l.reverse with
    | nil => simp
    | cons a t =>
      have ha : l.getLast? = some a := by
        rw [← List.head?_reverse, hr]
        rfl
      rw [List.dropWhile_cons, hl a ha]
      simp
  rw [h2, List.reverse_reverse]

/-- Helper: map of a pointwise-identity function. -/
theorem mapIdOn (f : Char → Char) (l : List Char) (h : ∀ c ∈ l, f c = c) :
    l.map f = l := by
  induction l with
  | nil => rfl
  | cons a t ih =>
    rw [List.map_cons, h a (List.mem_cons_self a _),
      ih (fun c hc => h c (List.mem_cons_of_mem _ hc))]

/-- Helper: flatMap of a pointwise-singleton function. -/
theorem flatMapIdOn (nfd : Char → List Char) (l : List Char)
    (h : ∀ c ∈ l, nfd c = [c]) : l.flatMap nfd = l := by
  induction l with
  | nil => rfl
  | cons a t ih =>
    rw [List.flatMap_cons, h a (List.mem_cons_self a _),
      ih (fun c hc => h c (List.mem_cons_of_mem _ hc))]
    rfl

/-- Helper: every character of a normalized name is a lowercase ASCII
letter, an ASCII digit or a space. -/
theorem mem_hltbNormalize_out (nfd : Char → List Char) (s : List Char)
    (c : Char) (h : c ∈ hltbNormalize nfd s) : isOutChar c = true := by
  rw [hltbNormalize] at h
  have h2 := mem_jsTrim _ _ h
  rcases mem_collapseWs _ _ h2 with h3 | ⟨h3, h4⟩
  · rw [h3]
    decide
  · have hk := (List.mem_filter.mp h3).2
    simp only [keepChar, Bool.or_eq_true, Bool.and_eq_true, decide_eq_true_eq] at hk
    rcases hk with (h5 | h5) | h5
    · simp only [isOutChar, Bool.or_eq_true, Bool.and_eq_true, decide_eq_true_eq]
      exact Or.inl (Or.inl h5)
    · simp only [isOutChar, Bool.or_eq_true, Bool.and_eq_true, decide_eq_true_eq]
      exact Or.inl (Or.inr h5)
    · exact absurd h4 (by rw [h5]; simp)

/-- Helper: lowercasing fixes the output alphabet. -/
theorem jsToLower_out (c : Char) (h : isOutChar c = true) : jsToLower c = c := by
  simp only [isOutChar, Bool.or_eq_true, Bool.and_eq_true, decide_eq_true_eq] at h
  rw [jsToLower, if_neg]
  omega

/-- C10: the name normalization is idempotent whenever the platform NFD
decomposition fixes the output alphabet (true of Unicode NFD, which is
the identity on ASCII): normalize(normalize(s)) = normalize(s). -/
theorem hltbNormalize_idempotent (nfd : Char → List Char)
    (hnfd : ∀ c : Char, isOutChar c = true → nfd c = [c]) (s : List Char) :
    hltbNormalize nfd (hltbNormalize nfd s) = hltbNormalize nfd s := by
  have hout : ∀ c ∈ hltbNormalize nfd s, isOutChar c = true :=
    fun c hc => mem_hltbNormalize_out nfd s c hc
  have e1 : (hltbNormalize nfd s).map jsToLower = hltbNormalize nfd s :=
    mapIdOn _ _ (fun c hc => jsToLower_out c (hout c hc))
  have e2 : (hltbNormalize nfd s).flatMap nfd = hltbNormalize nfd s :=
    flatMapIdOn _ _ (fun c hc => hnfd c (hout c hc))
  have e3 : (hltbNormalize nfd s).filter (fun c => !isCombiningMark c) =
      hltbNormalize nfd s := by
    rw [List.filter_eq_self]
    intro c hc
    have := hout c hc
    simp only [isOutChar, Bool.or_eq_true, Bool.and_eq_true, decide_eq_true_eq] at this
    simp only [isCombiningMark, Bool.not_eq_true', Bool.and_eq_false_iff,
      decide_eq_false_iff_not]
    omega
  have e4 : (hltbNormalize nfd s).filter keepChar = hltbNormalize nfd s := by
    rw [List.filter_eq_self]
    intro c hc
    have := hout c hc
    simp only [isOutChar, Bool.or_eq_true, Bool.and_eq_true, decide_eq_true_eq] at this
    simp only [keepChar, isWs, Bool.or_eq_true, Bool.and_eq_true, decide_eq_true_eq]
    omega
  have hch : WsChain (hltbNormalize nfd s) := by
    rw [hltbNormalize]
    exact wsChain_jsTrim _ (wsChain_collapseWs _)
  have hall : ∀ c ∈ hltbNormalize nfd s, isWs c = true → c = ' ' :=
    fun c hc hw => outChar_ws_eq_space c (hout c hc) hw
  have e5 : collapseWs (hltbNormalize nfd s) = hltbNormalize nfd s :=
    collapseWs_eq_self _ hall hch
  have e6 : jsTrim (hltbNormalize nfd s) = hltbNormalize nfd s := by
    apply jsTrim_eq_self
    · intro c hc
      exact jsTrim_head_not_ws _ c hc
    · intro c hc
      exact jsTrim_last_not_ws _ c hc
  show jsTrim (collapseWs
    (((((hltbNormalize nfd s).map jsToLower).flatMap nfd).filter
      (fun c => !isCombiningMark c)).filter keepChar)) = hltbNormalize nfd s
  rw [e1, e2, e3, e4, e5, e6]

/-- Witness for C10: idempotence at a concrete accented, punctuated name
under an NFD oracle that decomposes the accented e and fixes ASCII. -/
theorem hltbNormalize_idempotent_witness :
    hltbNormalize
        (fun c => if c.toNat = 0xE9 then ['e', Char.ofNat 0x301] else [c])
        (hltbNormalize
          (fun c => if c.toNat = 0xE9 then ['e', Char.ofNat 0x301] else [c])
          "Pokémon Legends:  Arceus".data) =
      hltbNormalize
        (fun c => if c.toNat = 0xE9 then ['e', Char.ofNat 0x301] else [c])
        "Pokémon Legends:  Arceus".data :=
  hltbNormalize_idempotent
    (fun c => if c.toNat = 0xE9 then ['e', Char.ofNat 0x301] else [c])
    (by
      intro c hc
      simp only [isOutChar, Bool.or_eq_true, Bool.and_eq_true,
        decide_eq_true_eq] at hc
      show (if c.toNat = 0xE9 then ['e', Char.ofNat 0x301] else [c]) = [c]
      rw [if_neg]
      omega)
    "Pokémon Legends:  Arceus".data

/-- Witness for the amended C1: rating 92 with fifty main-story hours
yields a present efficiency (spec scenario A). -/
theorem assembled_efficiency_iff_witness :
    (assembleGameData ⟨1, [], none, none, some 92, none, none, []⟩
      (some (mapToResult ⟨1, [], [], 180000, 0, 0, 0, 0⟩)) none [] []).efficiency.isSome := by
  apply (assembled_efficiency_iff ⟨1, [], none, none, some 92, none, none, []⟩
    (some (mapToResult ⟨1, [], [], 180000, 0, 0, 0, 0⟩)) none [] []).1.mpr
  constructor
  · refine ⟨92, ?_, by norm_num⟩
    show assembledRating (some (92 : ℚ)) = some 92
    norm_num [assembledRating, jsRound]
  · refine ⟨50, ?_, by norm_num⟩
    show assembledHltbHours (some (mapToResult ⟨1, [], [], 180000, 0, 0, 0, 0⟩)) =
      some 50
    norm_num [assembledHltbHours, mapToResult, secondsToHours, jsRound]
